import Mathlib

/-!
# ServeurHTTP: the request handler of `serveur_http.c`

A shallow embedding of `handle_client` (src/serveur_http.c, lines 47-157).

* A byte is a `Char`; a C string is the `List Char` of its bytes before the
  terminating NUL.  The handler only ever inspects ASCII bytes.
* Every system call the handler makes is recorded, in program order, as an
  `Event`.  The outcomes the handler branches on (the socket `read`, `open`,
  the file `read`s, `fopen` of the access log) are inputs, gathered in `World`.
  The return values of `write`, `close` and `fstat` are discarded by the
  source, so they are not inputs.
-/

namespace ServeurHTTP

/-! ## Constants -/

/-- The constant `#define BUFFER_SIZE 1024`. -/
def BUFFER_SIZE : Nat := 1024

/-- The constant `#define LOG_FILE "55.log"`, the access log. -/
def LOG_FILE : List Char := "55.log".toList

/-! ## The C library functions the handler uses -/

/-- The bytes of a buffer seen as a C string: everything before the first NUL. -/
def cstr (buf : List Char) : List Char :=
  buf.takeWhile (fun c => c != '\x00')

/-- The `isspace` of the C locale: space, `\t`, `\n`, `\v`, `\f`, `\r`. -/
def isspace (c : Char) : Bool :=
  c == ' ' || c == '\t' || c == '\n' || c == '\x0b' || c == '\x0c' || c == '\r'

/-- The call `sscanf(buffer, "GET %s", file_path)`: the literal `GET` must match, the
blank of the format (and `%s` itself) skips any run of white space, and `%s`
stores the following run of non-white-space bytes.  `none` when nothing is
stored: the literal does not match, or the input ends before a byte of the
token. -/
def sscanf_GET (s : List Char) : Option (List Char) :=
  match s with
  | 'G' :: 'E' :: 'T' :: rest =>
    let tok := (rest.dropWhile isspace).takeWhile (fun c => !isspace c)
    if tok = [] then none else some tok
  | _ => none

/-- The call `snprintf(dst, size, ...)` where the format expands to `s`: at most
`size - 1` bytes are stored, followed by the NUL. -/
def snprintf (size : Nat) (s : List Char) : List Char :=
  s.take (size - 1)

/-- The test `strstr(haystack, needle) != NULL`: `needle` occurs somewhere in `haystack`. -/
def strstr : List Char → List Char → Bool
  | [], needle => needle.isPrefixOf []
  | c :: cs, needle => needle.isPrefixOf (c :: cs) || strstr cs needle

/-! ## Effects -/

/-- The calls of `handle_client` that act outside the process (socket, files,
access log, syslog, standard error), as they appear in the source.  The pure
library calls (`sscanf`, `strcmp`, `snprintf`, `strstr`, `strlen`) are the
functions above; `time`, `localtime` and `strftime` only produce `time_str`. -/
inductive Event where
  /-- The call `read(client_socket, buffer, BUFFER_SIZE - 1)` and its return value -/
  | readSock (result : Int)
  /-- The call `perror(msg)` -/
  | perror (msg : List Char)
  /-- The call `close(client_socket)` -/
  | closeSock
  /-- The call `open(full_path, O_RDONLY)`; `ok` is `file_fd >= 0` -/
  | openFile (path : List Char) (ok : Bool)
  /-- The call `write(client_socket, bytes, len)` -/
  | writeSock (bytes : List Char)
  /-- The call `log_error(msg)`: one message to syslog -/
  | log_error (msg : List Char)
  /-- The call `fstat(file_fd, &file_stat)` -/
  | fstat
  /-- The call `read(file_fd, file_content, BUFFER_SIZE)` and its return value -/
  | readFile (result : Int)
  /-- The call `close(file_fd)` -/
  | closeFile
  /-- The call `fopen(path, "a")`; `ok` is `log_file != NULL` -/
  | fopenLog (path : List Char) (ok : Bool)
  /-- The call `fprintf(log_file, ...)`: the text appended to the access log -/
  | fprintfLog (line : List Char)
  /-- The call `fclose(log_file)` -/
  | fcloseLog
  deriving DecidableEq, Repr

/-- The outcomes of the calls `handle_client` branches on. -/
structure World where
  /-- outcome of the one `read` on the socket: `none` is a negative return
  value, `some bytes` the bytes the peer's data offers to that call -/
  sock_read : Option (List Char)
  /-- the indeterminate contents of the local `file_path` before `sscanf`, as
  a C string; it is what stays there when `sscanf` stores nothing -/
  stack_file_path : List Char
  /-- the file system: `open(path, O_RDONLY)` fails (`none`) or gives a file
  with the given bytes -/
  fs : List Char → Option (List Char)
  /-- With `some k` the `read` number `k` (from 0) on the opened file returns -1;
  `none`: every `read` on it succeeds -/
  file_read_error : Option Nat
  /-- Whether `fopen(LOG_FILE, "a")` succeeds -/
  log_openable : Bool
  /-- result of `strftime(time_str, 64, "%Y-%m-%d %H:%M:%S", localtime(&now))` -/
  time_str : List Char

/-! ## `handle_client` -/

/-- Lines 63-65: the contents of `file_path` after `sscanf(buffer, "GET %s", file_path)`,
where `buffer` holds the bytes read, NUL-terminated at `bytes_read`. -/
def parse_file_path (stack_file_path data : List Char) : List Char :=
  match sscanf_GET (cstr (data.take (BUFFER_SIZE - 1))) with
  | some p => p
  | none => stack_file_path

/-- Lines 67-71: `if (strcmp(file_path, "/") == 0) snprintf(file_path, sizeof(file_path), "/index.html");` -/
def resolve_index (file_path : List Char) : List Char :=
  if file_path = "/".toList then snprintf BUFFER_SIZE "/index.html".toList else file_path

/-- The value of `file_path` from line 72 on. -/
def file_path (stack_file_path data : List Char) : List Char :=
  resolve_index (parse_file_path stack_file_path data)

/-- Lines 73-75: `snprintf(full_path, sizeof(full_path), "%s%s", document_root, file_path)`. -/
def full_path (document_root file_path : List Char) : List Char :=
  snprintf BUFFER_SIZE (document_root ++ file_path)

/-- Lines 82-87: the literal `not_found_response`. -/
def not_found_response : List Char :=
  ("HTTP/1.0 404 Not Found\r\n" ++
   "Content-Type: text/html\r\n" ++
   "Content-Length: 100\r\n" ++
   "\r\n" ++
   "<html><body><h1>404 Not Found</h1><p>The requested file could not be found.</p></body></html>").toList

/-- Lines 112-113: the literal `ok_response`. -/
def ok_response : List Char := "HTTP/1.0 200 OK\r\n".toList

/-- Lines 94-107: the choice of `content_type` from `file_path`. -/
def content_type (file_path : List Char) : List Char :=
  if strstr file_path ".html".toList then "text/html".toList
  else if strstr file_path ".css".toList then "text/css".toList
  else "text/plain".toList

/-- Line 118: `snprintf(content_type_header, sizeof(content_type_header), "Content-Type: %s\r\n", content_type)`. -/
def content_type_header (content_type : List Char) : List Char :=
  snprintf BUFFER_SIZE ("Content-Type: ".toList ++ content_type ++ "\r\n".toList)

/-- Lines 127-130: `while ((n = read(file_fd, file_content, BUFFER_SIZE)) > 0) write(client_socket, file_content, n);`
on a regular file whose unread bytes are `rest`; `i` counts the `read`s made so
far.  Each round consumes one unit of `fuel`; `handle_client` supplies more
than the loop can use. -/
def send_file (file_read_error : Option Nat) : Nat → Nat → List Char → List Event
  | 0, _, _ => []
  | fuel + 1, i, rest =>
    if file_read_error = some i then [Event.readFile (-1)]
    else if rest = [] then [Event.readFile 0]
    else
      Event.readFile ((rest.take BUFFER_SIZE).length : Nat) ::
      Event.writeSock (rest.take BUFFER_SIZE) ::
      send_file file_read_error fuel (i + 1) (rest.drop BUFFER_SIZE)

/-- Lines 136-156: the access-log entry written after the response. -/
def log_request (w : World) (client_ip file_path : List Char) : List Event :=
  if w.log_openable then
    [Event.fopenLog LOG_FILE true,
     Event.fprintfLog (w.time_str ++ " - ".toList ++ client_ip ++ " - ".toList ++ file_path ++ "\n".toList),
     Event.fcloseLog]
  else
    [Event.fopenLog LOG_FILE false, Event.perror "fopen".toList, Event.log_error "Unable to open log file".toList]

/-- The function `void handle_client(int client_socket, const char *document_root, const char *client_ip)`:
the calls it makes, in order. -/
def handle_client (w : World) (document_root client_ip : List Char) : List Event :=
  match w.sock_read with
  | none =>
    [Event.readSock (-1), Event.perror "read".toList, Event.closeSock]
  | some data =>
    let fp := file_path w.stack_file_path data
    let full := full_path document_root fp
    match w.fs full with
    | none =>
      [Event.readSock ((data.take (BUFFER_SIZE - 1)).length : Nat),
       Event.openFile full false,
       Event.writeSock not_found_response,
       Event.closeSock,
       Event.log_error "Requested file not found".toList]
    | some content =>
      [Event.readSock ((data.take (BUFFER_SIZE - 1)).length : Nat),
       Event.openFile full true,
       Event.fstat,
       Event.writeSock ok_response,
       Event.writeSock (content_type_header (content_type fp)),
       Event.writeSock "\r\n".toList]
      ++ send_file w.file_read_error (content.length + 1) 0 content
      ++ [Event.closeFile, Event.closeSock]
      ++ log_request w client_ip fp

/-! ## Observations on a run -/

/-- The bytes offered to the connection, in order (what the peer receives when
every `write` is complete). -/
def socket_bytes : List Event → List Char
  | [] => []
  | Event.writeSock b :: es => b ++ socket_bytes es
  | _ :: es => socket_bytes es

/-- The text appended to the access log (opened in append mode), in order. -/
def log_appended : List Event → List Char
  | [] => []
  | Event.fprintfLog l :: es => l ++ log_appended es
  | _ :: es => log_appended es

/-- The access log after a run that started with contents `before`. -/
def access_log_after (before : List Char) (trace : List Event) : List Char :=
  before ++ log_appended trace

/-- The path given to `open`, if `open` was called. -/
def opened_path : List Event → Option (List Char)
  | [] => none
  | Event.openFile p _ :: _ => some p
  | _ :: es => opened_path es

/-- A world for examples: the socket delivers `request`, the files are `files`. -/
def World.simple (request : List Char) (files : List (List Char × List Char)) : World where
  sock_read := some request
  stack_file_path := []
  fs := fun p => (files.lookup p)
  file_read_error := none
  log_openable := true
  time_str := "2024-01-01 12:00:00".toList

/-- What may follow the path token in a request: nothing, a white-space byte
or a NUL (for instance the ` HTTP/1.0\r\n\r\n` of a request line). -/
def ends_token (t : List Char) : Bool :=
  match t with
  | [] => true
  | c :: _ => isspace c || c == '\x00'

/-- The buffers given to `write(client_socket, ...)`, one per call, in order. -/
def socket_writes : List Event → List (List Char)
  | [] => []
  | Event.writeSock b :: es => b :: socket_writes es
  | _ :: es => socket_writes es

/-- The world `w` in which the socket `read` delivers `request`. -/
def World.with_request (w : World) (request : List Char) : World :=
  { w with sock_read := some request }

/-- The bytes of an HTTP message after its first blank line (CR LF CR LF). -/
def body_of : List Char → List Char
  | '\r' :: '\n' :: '\r' :: '\n' :: rest => rest
  | _ :: cs => body_of cs
  | [] => []

/-- The decimal number written by a run of digits. -/
def decimal (ds : List Char) : Nat :=
  ds.foldl (fun n ch => 10 * n + (ch.toNat - '0'.toNat)) 0

/-- The value declared by the first `Content-Length: ` header of an HTTP message. -/
def declared_content_length : List Char → Option Nat
  | [] => none
  | c :: cs =>
    if "Content-Length: ".toList.isPrefixOf (c :: cs) then
      some (decimal (((c :: cs).drop "Content-Length: ".length).takeWhile Char.isDigit))
    else declared_content_length cs

/-- In `t`, no event of kind `first` comes after an event of kind `later`. -/
def ordered (first later : Event → Bool) (t : List Event) : Prop :=
  t.Pairwise (fun x y => ¬ (later x = true ∧ first y = true))

instance (first later : Event → Bool) (t : List Event) : Decidable (ordered first later t) := by
  unfold ordered
  infer_instance

/-- Events `read(client_socket, ...)`. -/
def is_read_request : Event → Bool
  | Event.readSock _ => true
  | _ => false

/-- Events `open(full_path, O_RDONLY)`. -/
def is_lookup : Event → Bool
  | Event.openFile _ _ => true
  | _ => false

/-- Events `write(client_socket, ...)`. -/
def is_respond : Event → Bool
  | Event.writeSock _ => true
  | _ => false

/-- Events `close(client_socket)`. -/
def is_close : Event → Bool
  | Event.closeSock => true
  | _ => false

/-- Events `fprintf(log_file, ...)`: a line goes to the access log. -/
def is_log : Event → Bool
  | Event.fprintfLog _ => true
  | _ => false

/-! ## Lemmas on the library functions -/

theorem strstr_iff_occurs (hay needle : List Char) :
    strstr hay needle = true ↔ needle <:+: hay := by
  induction hay with
  | nil => simp [strstr, List.isPrefixOf_iff_prefix]
  | cons c cs ih =>
    simp [strstr, List.infix_cons_iff, ih]

theorem strstr_of_suffix (hay needle : List Char) (h : needle <:+ hay) :
    strstr hay needle = true :=
  (strstr_iff_occurs hay needle).2 h.isInfix

theorem cstr_append_of_no_nul (l r : List Char) (h : ∀ x ∈ l, x ≠ '\x00') :
    cstr (l ++ r) = l ++ cstr r := by
  induction l with
  | nil => rfl
  | cons a l ih =>
    have ha : a ≠ '\x00' := h a (List.mem_cons_self a l)
    have hl : ∀ x ∈ l, x ≠ '\x00' := fun x hx => h x (List.mem_cons_of_mem a hx)
    have := ih hl
    simp only [cstr] at this ⊢
    simp [List.takeWhile_cons, ha, this]

theorem takeWhile_append_stop (f : Char → Bool) (l r : List Char)
    (hl : ∀ x ∈ l, f x = true) (hr : r = [] ∨ ∃ c r', r = c :: r' ∧ f c = false) :
    (l ++ r).takeWhile f = l := by
  induction l with
  | nil =>
    rcases hr with rfl | ⟨c, r', rfl, hc⟩
    · rfl
    · simp [List.takeWhile_cons, hc]
  | cons a l ih =>
    have ha : f a = true := hl a (List.mem_cons_self a l)
    have hl' : ∀ x ∈ l, f x = true := fun x hx => hl x (List.mem_cons_of_mem a hx)
    simp [List.takeWhile_cons, ha, ih hl']

theorem sscanf_GET_token (tok r : List Char) (htok : tok ≠ [])
    (hclean : ∀ x ∈ tok, isspace x = false)
    (hr : r = [] ∨ ∃ c r', r = c :: r' ∧ isspace c = true) :
    sscanf_GET ('G' :: 'E' :: 'T' :: ' ' :: (tok ++ r)) = some tok := by
  cases tok with
  | nil => exact absurd rfl htok
  | cons a tok' =>
    have ha : isspace a = false := hclean a (List.mem_cons_self a tok')
    have hsp : isspace ' ' = true := by decide
    have hdrop : List.dropWhile isspace (' ' :: (a :: tok' ++ r)) = a :: tok' ++ r := by
      simp [List.dropWhile_cons, hsp, ha]
    have htake : List.takeWhile (fun c => !isspace c) (a :: tok' ++ r) = a :: tok' := by
      apply takeWhile_append_stop
      · intro x hx
        simp [hclean x hx]
      · rcases hr with rfl | ⟨c, r', rfl, hc⟩
        · exact Or.inl rfl
        · exact Or.inr ⟨c, r', rfl, by simp [hc]⟩
    simp only [sscanf_GET, hdrop, htake]
    simp

theorem cstr_take_ends_token (t : List Char) (k : Nat) (ht : ends_token t = true) :
    cstr (t.take k) = [] ∨ ∃ c r', cstr (t.take k) = c :: r' ∧ isspace c = true := by
  cases t with
  | nil => left; simp [cstr]
  | cons c t' =>
    cases k with
    | zero => left; simp [cstr]
    | succ k =>
      by_cases hc : c = '\x00'
      · left
        subst hc
        simp [cstr, List.takeWhile_cons]
      · right
        have hsp : isspace c = true := by
          simp only [ends_token, Bool.or_eq_true, beq_iff_eq] at ht
          rcases ht with h | h
          · exact h
          · exact absurd h hc
        exact ⟨c, cstr (t'.take k), by simp [cstr, List.takeWhile_cons, hc], hsp⟩

/-- A request that starts with `GET `, a non-empty token free of white space
and NUL, and then anything that ends the token, is parsed to that token. -/
theorem parse_file_path_GET (s tok t : List Char) (htok : tok ≠ [])
    (hclean : ∀ x ∈ tok, isspace x = false ∧ x ≠ '\x00')
    (hlen : ("GET ".toList ++ tok).length ≤ BUFFER_SIZE - 1)
    (ht : ends_token t = true) :
    parse_file_path s ("GET ".toList ++ tok ++ t) = tok := by
  have hnul : ∀ x ∈ "GET ".toList ++ tok, x ≠ '\x00' := by
    intro x hx
    rcases List.mem_append.1 hx with h | h
    · have : x = 'G' ∨ x = 'E' ∨ x = 'T' ∨ x = ' ' := by simpa using h
      rcases this with rfl | rfl | rfl | rfl <;> decide
    · exact (hclean x h).2
  have htake : ("GET ".toList ++ tok ++ t).take (BUFFER_SIZE - 1)
      = ("GET ".toList ++ tok) ++ t.take (BUFFER_SIZE - 1 - ("GET ".toList ++ tok).length) := by
    rw [List.take_append_eq_append_take, List.take_of_length_le hlen]
  have hscan := sscanf_GET_token tok
    (cstr (t.take (BUFFER_SIZE - 1 - ("GET ".toList ++ tok).length))) htok
    (fun x hx => (hclean x hx).1) (cstr_take_ends_token t _ ht)
  have hlit : "GET ".toList ++ tok ++ cstr (t.take (BUFFER_SIZE - 1 - ("GET ".toList ++ tok).length))
      = 'G' :: 'E' :: 'T' :: ' ' ::
        (tok ++ cstr (t.take (BUFFER_SIZE - 1 - ("GET ".toList ++ tok).length))) := rfl
  simp only [parse_file_path, htake, cstr_append_of_no_nul _ _ hnul, hlit, hscan]

/-! ## Lemmas on the observations -/

theorem socket_bytes_append (a b : List Event) :
    socket_bytes (a ++ b) = socket_bytes a ++ socket_bytes b := by
  induction a with
  | nil => rfl
  | cons e a ih => cases e <;> simp [socket_bytes, ih]

theorem log_appended_append (a b : List Event) :
    log_appended (a ++ b) = log_appended a ++ log_appended b := by
  induction a with
  | nil => rfl
  | cons e a ih => cases e <;> simp [log_appended, ih]

/-- The loop only reads the file and writes to the socket. -/
theorem send_file_events (err : Option Nat) (fuel i : Nat) (rest : List Char) :
    ∀ e ∈ send_file err fuel i rest, (∃ n, e = Event.readFile n) ∨ (∃ b, e = Event.writeSock b) := by
  induction fuel generalizing i rest with
  | zero => intro e he; simp [send_file] at he
  | succ fuel ih =>
    intro e he
    unfold send_file at he
    split at he
    · simp at he; exact Or.inl ⟨_, he⟩
    · split at he
      · simp at he; exact Or.inl ⟨_, he⟩
      · rcases List.mem_cons.1 he with h | h
        · exact Or.inl ⟨_, h⟩
        · rcases List.mem_cons.1 h with h | h
          · exact Or.inr ⟨_, h⟩
          · exact ih _ _ e h

/-- With no read error and enough fuel the loop sends the whole file. -/
theorem send_file_socket_bytes (fuel i : Nat) (rest : List Char) (h : rest.length < fuel) :
    socket_bytes (send_file none fuel i rest) = rest := by
  induction fuel generalizing i rest with
  | zero => omega
  | succ fuel ih =>
    unfold send_file
    by_cases hr : rest = []
    · simp [hr, socket_bytes]
    · have hpos : 0 < rest.length := List.length_pos.2 hr
      have hlt : (rest.drop BUFFER_SIZE).length < fuel := by
        simp only [List.length_drop, BUFFER_SIZE]
        omega
      simp [hr, socket_bytes, ih (i + 1) _ hlt]

/-- The fuel `handle_client` supplies is never used up: the loop stops on a
`read` that returns 0 (end of file) or -1 (error), as in the source. -/
theorem send_file_stops (err : Option Nat) (fuel i : Nat) (rest : List Char)
    (h : rest.length < fuel) :
    ∃ pre r, send_file err fuel i rest = pre ++ [Event.readFile r] ∧ r ≤ 0 := by
  induction fuel generalizing i rest with
  | zero => omega
  | succ fuel ih =>
    unfold send_file
    by_cases he : err = some i
    · exact ⟨[], -1, by simp [he], by decide⟩
    · by_cases hr : rest = []
      · exact ⟨[], 0, by simp [he, hr], by decide⟩
      · have hpos : 0 < rest.length := List.length_pos.2 hr
        have hlt : (rest.drop BUFFER_SIZE).length < fuel := by
          simp only [List.length_drop, BUFFER_SIZE]
          omega
        obtain ⟨pre, r, hpre, hr0⟩ := ih (i + 1) _ hlt
        refine ⟨Event.readFile ((rest.take BUFFER_SIZE).length : Nat) ::
          Event.writeSock (rest.take BUFFER_SIZE) :: pre, r, ?_, hr0⟩
        simp [he, hr, hpre]

theorem send_file_log_appended (err : Option Nat) (fuel i : Nat) (rest : List Char) :
    log_appended (send_file err fuel i rest) = [] := by
  induction fuel generalizing i rest with
  | zero => rfl
  | succ fuel ih =>
    unfold send_file
    split
    · rfl
    · split
      · rfl
      · simp [log_appended, ih]

theorem socket_writes_append (a b : List Event) :
    socket_writes (a ++ b) = socket_writes a ++ socket_writes b := by
  induction a with
  | nil => rfl
  | cons e a ih => cases e <;> simp [socket_writes, ih]

/-- Every buffer the loop writes holds between 1 and `BUFFER_SIZE` bytes. -/
theorem send_file_chunks (err : Option Nat) (fuel i : Nat) (rest : List Char) :
    ∀ b ∈ socket_writes (send_file err fuel i rest), 0 < b.length ∧ b.length ≤ BUFFER_SIZE := by
  induction fuel generalizing i rest with
  | zero => intro b hb; simp [send_file, socket_writes] at hb
  | succ fuel ih =>
    intro b hb
    unfold send_file at hb
    split at hb
    · simp [socket_writes] at hb
    · split at hb
      · simp [socket_writes] at hb
      · rename_i hr
        simp only [socket_writes, List.mem_cons] at hb
        rcases hb with rfl | hb
        · have hpos : 0 < rest.length := List.length_pos.2 hr
          simp only [List.length_take, BUFFER_SIZE]
          omega
        · exact ih _ _ b hb

theorem content_type_cases (fp : List Char) :
    content_type fp = "text/html".toList ∨ content_type fp = "text/css".toList
      ∨ content_type fp = "text/plain".toList := by
  unfold content_type
  split
  · exact Or.inl rfl
  · split
    · exact Or.inr (Or.inl rfl)
    · exact Or.inr (Or.inr rfl)

/-- The `Content-Type` header always fits its buffer. -/
theorem content_type_header_eq (fp : List Char) :
    content_type_header (content_type fp)
      = "Content-Type: ".toList ++ content_type fp ++ "\r\n".toList := by
  rcases content_type_cases fp with h | h | h <;> rw [h] <;> decide

theorem full_path_of_fits (d fp : List Char) (h : (d ++ fp).length < BUFFER_SIZE) :
    full_path d fp = d ++ fp := by
  unfold full_path snprintf
  apply List.take_of_length_le
  omega

/-! ## The claims -/

/-- C1: a request `GET <p> HTTP/1.0\r\n\r\n` read in one call, with `p` a
non-empty path without white space (or NUL), whose file `d ++ resolved(p)` fits
the path buffer, opens and has content `c` that is read to end-of-file: the
bytes written to the connection are exactly `HTTP/1.0 200 OK\r\n`,
`Content-Type: <type>\r\n`, `\r\n` and then `c`, for every `c`; the body is
written as chunks of 1 to 1024 bytes whose concatenation is `c`; the headers
contain no `Content-Length`. -/
theorem handle_client_serves_file (w : World) (d ip p c : List Char)
    (hp : p ≠ [])
    (hclean : ∀ x ∈ p, isspace x = false ∧ x ≠ '\x00')
    (hreq : w.sock_read = some ("GET ".toList ++ p ++ " HTTP/1.0\r\n\r\n".toList))
    (hone : ("GET ".toList ++ p ++ " HTTP/1.0\r\n\r\n".toList).length ≤ BUFFER_SIZE - 1)
    (hfit : (d ++ resolve_index p).length < BUFFER_SIZE)
    (hfile : w.fs (d ++ resolve_index p) = some c)
    (hread : w.file_read_error = none) :
    socket_bytes (handle_client w d ip)
        = "HTTP/1.0 200 OK\r\n".toList
          ++ ("Content-Type: ".toList ++ content_type (resolve_index p) ++ "\r\n".toList)
          ++ "\r\n".toList ++ c
      ∧ (∃ chunks : List (List Char),
          socket_writes (handle_client w d ip)
            = ["HTTP/1.0 200 OK\r\n".toList,
               "Content-Type: ".toList ++ content_type (resolve_index p) ++ "\r\n".toList,
               "\r\n".toList] ++ chunks
          ∧ chunks.flatten = c
          ∧ ∀ b ∈ chunks, 0 < b.length ∧ b.length ≤ BUFFER_SIZE)
      ∧ strstr ("HTTP/1.0 200 OK\r\n".toList
          ++ ("Content-Type: ".toList ++ content_type (resolve_index p) ++ "\r\n".toList)
          ++ "\r\n".toList) "Content-Length".toList = false := by
  have hlen : ("GET ".toList ++ p).length ≤ BUFFER_SIZE - 1 := by
    simp only [List.length_append] at hone ⊢
    omega
  have hparse : file_path w.stack_file_path ("GET ".toList ++ p ++ " HTTP/1.0\r\n\r\n".toList)
      = resolve_index p := by
    unfold file_path
    rw [parse_file_path_GET w.stack_file_path p _ hp hclean hlen (by decide)]
  have hfull : full_path d (resolve_index p) = d ++ resolve_index p := full_path_of_fits d _ hfit
  have hbytes : socket_bytes (send_file none (c.length + 1) 0 c) = c :=
    send_file_socket_bytes _ _ _ (Nat.lt_succ_self _)
  have hflat : ∀ (fuel i : Nat) (rest : List Char),
      (socket_writes (send_file none fuel i rest)).flatten
        = socket_bytes (send_file none fuel i rest) := by
    intro fuel
    induction fuel with
    | zero => intro i rest; rfl
    | succ fuel ih =>
      intro i rest
      unfold send_file
      by_cases hr : rest = []
      · simp [hr, socket_writes, socket_bytes]
      · simp [hr, socket_writes, socket_bytes, ih]
  refine ⟨?_, ?_, ?_⟩
  · simp only [handle_client, hreq, hparse, hfull, hfile, hread, socket_bytes_append,
      content_type_header_eq, log_request]
    split <;> simp [socket_bytes, hbytes, ok_response]
  · refine ⟨socket_writes (send_file none (c.length + 1) 0 c), ?_, ?_, ?_⟩
    · simp only [handle_client, hreq, hparse, hfull, hfile, hread, socket_writes_append,
        content_type_header_eq, log_request]
      split <;> simp [socket_writes, ok_response]
    · rw [hflat, hbytes]
    · exact send_file_chunks _ _ _ _
  · rcases content_type_cases (resolve_index p) with h | h | h <;> rw [h] <;> decide

/-- C1, the scenario of the specification: document root `/var/www`, request
`GET / HTTP/1.0\r\n\r\n`, `/var/www/index.html` holding `<h1>Hi</h1>`. -/
theorem handle_client_serves_file_witness :
    socket_bytes (handle_client
        (World.simple "GET / HTTP/1.0\r\n\r\n".toList
          [("/var/www/index.html".toList, "<h1>Hi</h1>".toList)])
        "/var/www".toList "127.0.0.1".toList)
      = "HTTP/1.0 200 OK\r\nContent-Type: text/html\r\n\r\n<h1>Hi</h1>".toList :=
  (handle_client_serves_file
    (World.simple "GET / HTTP/1.0\r\n\r\n".toList
      [("/var/www/index.html".toList, "<h1>Hi</h1>".toList)])
    "/var/www".toList "127.0.0.1".toList "/".toList "<h1>Hi</h1>".toList
    (by decide) (by decide) rfl (by decide) (by decide) (by decide) rfl).1

/-- C2: when the read succeeds and the resolved full path cannot be opened,
the only write to the connection is the fixed 404 message, whatever the request
and the document root: status line `HTTP/1.0 404 Not Found`, `Content-Type:
text/html`, `Content-Length: 100`, a blank line and the fixed HTML body; no
other bytes (no `200` status line, no file bytes) are written. -/
theorem handle_client_not_found (w : World) (d ip data : List Char)
    (hreq : w.sock_read = some data)
    (hopen : w.fs (full_path d (file_path w.stack_file_path data)) = none) :
    socket_writes (handle_client w d ip) = [not_found_response]
      ∧ socket_bytes (handle_client w d ip)
        = "HTTP/1.0 404 Not Found\r\n".toList
          ++ "Content-Type: text/html\r\n".toList
          ++ "Content-Length: 100\r\n".toList
          ++ "\r\n".toList
          ++ "<html><body><h1>404 Not Found</h1><p>The requested file could not be found.</p></body></html>".toList := by
  constructor
  · simp [handle_client, hreq, hopen, socket_writes]
  · simp only [handle_client, hreq, hopen, socket_bytes]
    decide

/-- C2, the scenario of the specification: `GET /missing.png HTTP/1.0\r\n\r\n`
under `/var/www`, where only `/var/www/index.html` exists. -/
theorem handle_client_not_found_witness :
    socket_writes (handle_client
        (World.simple "GET /missing.png HTTP/1.0\r\n\r\n".toList
          [("/var/www/index.html".toList, "<h1>Hi</h1>".toList)])
        "/var/www".toList "127.0.0.1".toList)
      = [not_found_response] :=
  (handle_client_not_found
    (World.simple "GET /missing.png HTTP/1.0\r\n\r\n".toList
      [("/var/www/index.html".toList, "<h1>Hi</h1>".toList)])
    "/var/www".toList "127.0.0.1".toList "GET /missing.png HTTP/1.0\r\n\r\n".toList
    rfl (by decide)).1

/-- C4: a path that ends in `.html` gets `text/html`; a path that ends in
`.css` and on which the `.html` test of the handler does not match gets
`text/css`; the `.html` test comes first, so a path on which it matches gets
`text/html` whether or not the `.css` test would match too. -/
theorem content_type_by_suffix (fp : List Char) :
    (".html".toList <:+ fp → content_type fp = "text/html".toList)
      ∧ (".css".toList <:+ fp → strstr fp ".html".toList = false →
          content_type fp = "text/css".toList)
      ∧ (strstr fp ".html".toList = true → content_type fp = "text/html".toList) := by
  refine ⟨?_, ?_, ?_⟩
  · intro h
    unfold content_type
    rw [if_pos (strstr_of_suffix fp _ h)]
  · intro h hn
    unfold content_type
    rw [if_neg (by rw [hn]; decide), if_pos (strstr_of_suffix fp _ h)]
  · intro h
    unfold content_type
    rw [if_pos h]

/-- C4 at `/index.html` and `/style.css`. -/
theorem content_type_by_suffix_witness :
    content_type "/index.html".toList = "text/html".toList
      ∧ content_type "/style.css".toList = "text/css".toList :=
  ⟨(content_type_by_suffix "/index.html".toList).1 ⟨"/index".toList, rfl⟩,
   (content_type_by_suffix "/style.css".toList).2.1 ⟨"/style".toList, rfl⟩ (by decide)⟩

/-- What the selection does on the other paths: `text/plain` exactly when
neither `.html` nor `.css` occurs anywhere in the path. -/
theorem content_type_plain_iff (fp : List Char) :
    content_type fp = "text/plain".toList
      ↔ ¬ (".html".toList <:+: fp) ∧ ¬ (".css".toList <:+: fp) := by
  rw [← strstr_iff_occurs, ← strstr_iff_occurs]
  unfold content_type
  by_cases h : strstr fp ".html".toList = true
  · rw [if_pos h]
    constructor
    · intro hc; exact absurd hc (by decide)
    · intro hc; exact absurd h hc.1
  · rw [if_neg h]
    by_cases h' : strstr fp ".css".toList = true
    · rw [if_pos h']
      constructor
      · intro hc; exact absurd hc (by decide)
      · intro hc; exact absurd h' hc.2
    · rw [if_neg h']
      exact ⟨fun _ => ⟨h, h'⟩, fun _ => rfl⟩

/-- C5: the paths `/a.html.bak`, `/site.css.map` and `/x.htmlfoo/readme` end
in neither `.html` nor `.css`, and the handler gives them `text/html`,
`text/css` and `text/html`, not `text/plain`; the response to
`GET /a.html.bak HTTP/1.0\r\n\r\n` carries `Content-Type: text/html`. -/
theorem content_type_inner_extension :
    ¬ (".html".toList <:+ "/a.html.bak".toList)
      ∧ ¬ (".css".toList <:+ "/a.html.bak".toList)
      ∧ content_type "/a.html.bak".toList = "text/html".toList
      ∧ ¬ (".html".toList <:+ "/site.css.map".toList)
      ∧ ¬ (".css".toList <:+ "/site.css.map".toList)
      ∧ content_type "/site.css.map".toList = "text/css".toList
      ∧ ¬ (".html".toList <:+ "/x.htmlfoo/readme".toList)
      ∧ ¬ (".css".toList <:+ "/x.htmlfoo/readme".toList)
      ∧ content_type "/x.htmlfoo/readme".toList = "text/html".toList
      ∧ socket_bytes (handle_client
          (World.simple "GET /a.html.bak HTTP/1.0\r\n\r\n".toList
            [("/var/www/a.html.bak".toList, "old".toList)])
          "/var/www".toList "127.0.0.1".toList)
        = "HTTP/1.0 200 OK\r\nContent-Type: text/html\r\n\r\nold".toList := by
  decide

/-- C10: in the 404 message the handler writes, the header declares
`Content-Length: 100` while 93 bytes follow the blank line; the number of
bytes written is the length of the whole literal, 165. -/
theorem not_found_length_mismatch (w : World) (d ip data : List Char)
    (hreq : w.sock_read = some data)
    (hopen : w.fs (full_path d (file_path w.stack_file_path data)) = none) :
    declared_content_length (socket_bytes (handle_client w d ip)) = some 100
      ∧ (body_of (socket_bytes (handle_client w d ip))).length = 93
      ∧ (body_of (socket_bytes (handle_client w d ip))).length ≠ 100
      ∧ (socket_bytes (handle_client w d ip)).length = not_found_response.length
      ∧ not_found_response.length = 165 := by
  have h : socket_bytes (handle_client w d ip) = not_found_response := by
    simp [handle_client, hreq, hopen, socket_bytes]
  rw [h]
  decide

/-- C10 at `GET /missing.png HTTP/1.0\r\n\r\n` under `/var/www`. -/
theorem not_found_length_mismatch_witness :
    (body_of (socket_bytes (handle_client
        (World.simple "GET /missing.png HTTP/1.0\r\n\r\n".toList [])
        "/var/www".toList "127.0.0.1".toList))).length = 93 :=
  (not_found_length_mismatch
    (World.simple "GET /missing.png HTTP/1.0\r\n\r\n".toList [])
    "/var/www".toList "127.0.0.1".toList "GET /missing.png HTTP/1.0\r\n\r\n".toList
    rfl (by decide)).2.1

theorem send_file_no_close (err : Option Nat) (fuel i : Nat) (rest : List Char) :
    Event.closeSock ∉ send_file err fuel i rest ∧ Event.closeFile ∉ send_file err fuel i rest := by
  constructor <;> intro h <;>
    rcases send_file_events _ _ _ _ _ h with ⟨n, hn⟩ | ⟨b, hb⟩ <;> simp at *

theorem send_file_kinds (err : Option Nat) (fuel i : Nat) (rest : List Char) :
    ∀ e ∈ send_file err fuel i rest,
      is_read_request e = false ∧ is_lookup e = false ∧ is_close e = false ∧ is_log e = false := by
  intro e he
  rcases send_file_events _ _ _ _ _ he with ⟨n, rfl⟩ | ⟨b, rfl⟩ <;>
    simp [is_read_request, is_lookup, is_close, is_log]

theorem ordered_of_no_first (first later : Event → Bool) (t : List Event)
    (h : ∀ e ∈ t, first e = false) : ordered first later t := by
  apply List.pairwise_of_forall_mem_list
  intro a _ b hb hab
  rw [h b hb] at hab
  exact absurd hab.2 (by decide)

theorem ordered_of_no_later (first later : Event → Bool) (t : List Event)
    (h : ∀ e ∈ t, later e = false) : ordered first later t := by
  apply List.pairwise_of_forall_mem_list
  intro a ha b _ hab
  rw [h a ha] at hab
  exact absurd hab.1 (by decide)

theorem ordered_append (first later : Event → Bool) (a b : List Event) :
    ordered first later (a ++ b)
      ↔ ordered first later a ∧ ordered first later b
        ∧ ∀ x ∈ a, ∀ y ∈ b, ¬ (later x = true ∧ first y = true) :=
  List.pairwise_append

theorem opened_path_of_read (w : World) (d ip data : List Char)
    (hreq : w.sock_read = some data) :
    opened_path (handle_client w d ip)
      = some (full_path d (file_path w.stack_file_path data)) := by
  simp only [handle_client, hreq]
  split <;> simp [opened_path]

/-- C9, as the code has it: when the read succeeds, the path given to `open`
is the first `BUFFER_SIZE - 1` = 1023 bytes of the document root followed by
the requested path (after the `/` rewrite); it is exactly that concatenation,
nothing removed or normalised, whenever the concatenation is shorter than
1024 bytes, `/../` sequences included. -/
theorem opened_path_is_truncated_concat (w : World) (d ip data : List Char)
    (hreq : w.sock_read = some data) :
    opened_path (handle_client w d ip)
        = some ((d ++ file_path w.stack_file_path data).take (BUFFER_SIZE - 1))
      ∧ ((d ++ file_path w.stack_file_path data).length < BUFFER_SIZE →
          opened_path (handle_client w d ip) = some (d ++ file_path w.stack_file_path data)) := by
  rw [opened_path_of_read w d ip data hreq]
  refine ⟨rfl, fun h => ?_⟩
  rw [full_path_of_fits d _ h]

/-- C9 on a request with a parent-directory sequence. -/
theorem opened_path_is_truncated_concat_witness :
    opened_path (handle_client
        (World.simple "GET /../etc/passwd HTTP/1.0\r\n\r\n".toList [])
        "/var/www".toList "127.0.0.1".toList)
      = some "/var/www/../etc/passwd".toList :=
  (opened_path_is_truncated_concat
    (World.simple "GET /../etc/passwd HTTP/1.0\r\n\r\n".toList [])
    "/var/www".toList "127.0.0.1".toList "GET /../etc/passwd HTTP/1.0\r\n\r\n".toList
    rfl).2 (by decide)

/-- C9 as claimed fails when the concatenation reaches 1024 bytes: with a
document root of 1020 bytes and the request `GET /abc`, the concatenation has
1024 bytes and the path given to `open` is its first 1023 bytes, without the
final `c`. -/
theorem opened_path_cut_counterexample :
    opened_path (handle_client (World.simple "GET /abc".toList [])
        (List.replicate 1020 'd') "127.0.0.1".toList)
      = some (List.replicate 1020 'd' ++ "/ab".toList)
      ∧ opened_path (handle_client (World.simple "GET /abc".toList [])
        (List.replicate 1020 'd') "127.0.0.1".toList)
      ≠ some (List.replicate 1020 'd' ++ "/abc".toList) := by
  have hfp : file_path [] "GET /abc".toList = "/abc".toList := by decide
  have hcut : full_path (List.replicate 1020 'd') "/abc".toList
      = List.replicate 1020 'd' ++ "/ab".toList := by
    unfold full_path snprintf
    rw [List.take_append_eq_append_take,
      List.take_of_length_le (by rw [List.length_replicate]; decide), List.length_replicate]
    rfl
  have h := opened_path_of_read (World.simple "GET /abc".toList [])
    (List.replicate 1020 'd') "127.0.0.1".toList "GET /abc".toList rfl
  have hfp' : file_path (World.simple "GET /abc".toList []).stack_file_path "GET /abc".toList
      = "/abc".toList := hfp
  rw [hfp', hcut] at h
  refine ⟨h, ?_⟩
  rw [h]
  intro hc
  have hlen := congrArg List.length (Option.some.inj hc)
  rw [List.length_append, List.length_append, List.length_replicate] at hlen
  exact absurd hlen (by decide)

end ServeurHTTP
